import Mathlib

/-!
Verification of the yamob crowd-simulation backend.

This file is a shallow embedding of the simulation core of
`src/backend/models.py` (geometry helpers, `Environment`, `Person`,
`Simulator`) and of the `start_simulation` request handler of
`src/backend/app.py`, together with theorems settling the frozen claims
about that code.

Modelling conventions:
* Python floats are modelled as exact rationals (`ℚ`).
* `numpy.linalg.norm` involves a square root, which is irrational in
  general.  Wherever the source only *compares* a norm against a bound,
  the comparison is translated into the equivalent square-root-free
  rational comparison (for `a ≥ 0`: `sqrt a < b ↔ 0 < b ∧ a < b²`, and
  `sqrt a ≤ b ↔ 0 ≤ b ∧ a ≤ b²`); bridging lemmas relate these to
  `Real.sqrt`.  Wherever the source uses the *value* of a norm
  (the preferred-velocity computation in `Simulator.step`), the
  embedding is parametrised by a square-root oracle `rt : ℚ → ℚ`, and
  theorems carry the hypothesis that `rt` is exact on the squared norms
  that actually occur.
* The rvo2 collision-avoidance library (`PyRVOSimulator`) is external
  third-party code, not part of this repository.  Its `doStep`,
  `getAgentPosition`, `getAgentVelocity` interaction inside
  `Simulator.step` is therefore modelled as an oracle
  `eng : List (Person × Vec) → List (Vec × Vec)` mapping each agent and
  its preferred velocity to a new position and velocity; `getGlobalTime`
  deterministically advances by the configured time step per `doStep`.
  The engine itself, needed by one claim, is modelled from the spec
  (see `computeNewVelocity` below).
* Python code that can raise is modelled with `Except`.
-/

set_option maxRecDepth 8000

namespace Yamob

/-- Two-dimensional vector over exact rationals, standing for the numpy
2-element float arrays used throughout `models.py`. -/
structure Vec where
  x : ℚ
  y : ℚ
deriving DecidableEq

def Vec.add (a b : Vec) : Vec := ⟨a.x + b.x, a.y + b.y⟩

def Vec.sub (a b : Vec) : Vec := ⟨a.x - b.x, a.y - b.y⟩

def Vec.scale (c : ℚ) (v : Vec) : Vec := ⟨c * v.x, c * v.y⟩

def Vec.dot (a b : Vec) : ℚ := a.x * b.x + a.y * b.y

def Vec.zero : Vec := ⟨0, 0⟩

/-- Squared Euclidean norm; `numpy.linalg.norm v` is `Real.sqrt (sqNorm v)`. -/
def sqNorm (v : Vec) : ℚ := v.x ^ 2 + v.y ^ 2

/-- Determinant of two 2-D vectors. -/
def det2 (a b : Vec) : ℚ := a.x * b.y - a.y * b.x

/-- Square-root-free translation of the float comparison
`sqrt a < b` (for `a` a squared norm): `sqrt a < b ↔ 0 < b ∧ a < b²`. -/
def sqrtLtB (a b : ℚ) : Bool := decide (0 < b ∧ a < b ^ 2)

/-- Square-root-free translation of `sqrt a ≤ t`, used to state arrival
conditions exactly: `sqrt a ≤ t ↔ 0 ≤ t ∧ a ≤ t²`. -/
def sqrtLe (a t : ℚ) : Prop := 0 ≤ t ∧ a ≤ t ^ 2

instance (a t : ℚ) : Decidable (sqrtLe a t) :=
  inferInstanceAs (Decidable (0 ≤ t ∧ a ≤ t ^ 2))

/-- Predicate stating that `s` is the exact square root of `a`; used as
the correctness hypothesis for the square-root oracle `rt`. -/
def isSqrtOf (s a : ℚ) : Prop := 0 ≤ s ∧ s ^ 2 = a

instance (s a : ℚ) : Decidable (isSqrtOf s a) :=
  inferInstanceAs (Decidable (0 ≤ s ∧ s ^ 2 = a))

/-- Embedding of `point_segment_distance` (models.py lines 8-19),
returning the squared distance: the closest point `a + clip(t,0,1)·ab`
is computed with exact rational arithmetic, only the final
`numpy.linalg.norm` is kept squared. -/
def point_segment_distSq (p a b : Vec) : ℚ :=
  let ap := p.sub a
  let ab := b.sub a
  let ab2 := Vec.dot ab ab
  if ab2 = 0 then sqNorm ap
  else
    let t := max 0 (min 1 (Vec.dot ap ab / ab2))
    sqNorm (p.sub (a.add (Vec.scale t ab)))

/-- Obstacle record variants accepted by `Environment.__init__`
(models.py line 30). -/
inductive Obstacle where
  | circle (center : Vec) (radius : ℚ)
  | rectangle (center : Vec) (width : ℚ) (height : ℚ)
deriving DecidableEq

/-- Embedding of the `Environment` class (models.py lines 22-76):
walls as segments plus the obstacle record list. -/
structure Environment where
  walls : List (Vec × Vec)
  obstacles : List Obstacle
deriving DecidableEq

/-- The `np_obstacles_circles` list built by `Environment.__init__`. -/
def Environment.circles (env : Environment) : List (Vec × ℚ) :=
  env.obstacles.filterMap fun o =>
    match o with
    | Obstacle.circle c r => some (c, r)
    | Obstacle.rectangle _ _ _ => none

/-- The `np_obstacles_rectangles` list built by `Environment.__init__`. -/
def Environment.rectangles (env : Environment) : List (Vec × ℚ × ℚ) :=
  env.obstacles.filterMap fun o =>
    match o with
    | Obstacle.circle _ _ => none
    | Obstacle.rectangle c w h => some (c, w, h)

/-- The axis-aligned-bounding-box test of step 3 of `is_accessible`
(models.py lines 63-72): the point lies in the rectangle expanded by the
probe radius (all four comparisons are non-strict in the source). -/
def inExpandedBox (p : Vec) (r : ℚ) (rc : Vec × ℚ × ℚ) : Prop :=
  rc.1.x - rc.2.1 / 2 - r ≤ p.x ∧ p.x ≤ rc.1.x + rc.2.1 / 2 + r ∧
  rc.1.y - rc.2.2 / 2 - r ≤ p.y ∧ p.y ≤ rc.1.y + rc.2.2 / 2 + r

instance (p : Vec) (r : ℚ) (rc : Vec × ℚ × ℚ) : Decidable (inExpandedBox p r rc) :=
  inferInstanceAs (Decidable (_ ∧ _ ∧ _ ∧ _))

/-- Embedding of `Environment.is_accessible` (models.py lines 45-76):
returns `false` as soon as the probe circle hits a wall segment, a
circular obstacle, or a rectangular obstacle's expanded box.  The three
early-return loops of the source are the three `any` clauses. -/
def Environment.is_accessible (env : Environment) (p : Vec) (r : ℚ) : Bool :=
  !(env.walls.any fun w => sqrtLtB (point_segment_distSq p w.1 w.2) r) &&
  (!(env.circles.any fun c => sqrtLtB (sqNorm (p.sub c.1)) (c.2 + r)) &&
   !(env.rectangles.any fun rc => decide (inExpandedBox p r rc)))

/-- Embedding of the `Person` class (models.py lines 78-90).  `speed` is
the scalar preferred speed, `size` the radius; `velocity` is the current
velocity vector maintained by the simulator. -/
structure Person where
  id : Nat
  position : Vec
  speed : ℚ
  size : ℚ
  destination : Vec
  velocity : Vec
deriving DecidableEq

/-- `Person.__init__`: stores the attributes verbatim, velocity zero.
No validation of `speed` or `size` occurs in the source. -/
def Person.init (id : Nat) (initial_position : Vec) (speed size : ℚ)
    (destination : Vec) : Person :=
  ⟨id, initial_position, speed, size, destination, Vec.zero⟩

/-- Embedding of the `Simulator` class state (models.py lines 93-121).
`persons` models the insertion-ordered dict `self.persons`; the rvo
agent-id maps always mirror `persons` one-to-one, so they are not
duplicated here.  The rvo global clock always equals `time` (both start
at 0 and advance together), so it is not duplicated either. -/
structure Simulator where
  environment : Environment
  persons : List Person
  destinations : List Vec
  time : ℚ
  dt : ℚ
  is_running : Bool
deriving DecidableEq

/-- Embedding of `Simulator.add_person` (models.py lines 123-148): a
person whose id is already a key of the dict is skipped with a warning;
otherwise it is appended (dict insertion order) and registered with the
rvo simulator. -/
def Simulator.add_person (s : Simulator) (p : Person) : Simulator :=
  if p.id ∈ s.persons.map Person.id then s
  else { s with persons := s.persons ++ [p] }

/-- Embedding of `Simulator.__init__` (models.py lines 98-121): fields
are stored verbatim (`time = 0`, `is_running = False`), the rvo
simulator is created with the given `dt`, and each supplied person is
added through `add_person`.  The source performs no validation of `dt`
or of the persons. -/
def mkSimulator (env : Environment) (persons : List Person)
    (destinations : List Vec) (dt : ℚ) : Simulator :=
  persons.foldl Simulator.add_person
    { environment := env, persons := [], destinations := destinations,
      time := 0, dt := dt, is_running := false }

/-- Error taxonomy of the spec's `configure` boundary.  The embedding of
the construction boundary returns `Except` so that the claim "invalid
configurations are rejected as a configuration error" is statable. -/
inductive ConfigError where
  | configurationError
deriving DecidableEq

/-- The `configure` operation of the spec, realised in the source by
constructing `Simulator(environment, persons, destinations, dt)`.
`Simulator.__init__` contains no `raise` and no validation, so the
construction always succeeds. -/
def configure (env : Environment) (persons : List Person)
    (destinations : List Vec) (dt : ℚ) : Except ConfigError Simulator :=
  Except.ok (mkSimulator env persons destinations dt)

/-- Embedding of `Simulator.start` (models.py lines 289-298): sets the
running flag when it is clear, otherwise only prints a message. -/
def Simulator.start (s : Simulator) : Simulator :=
  if s.is_running then s else { s with is_running := true }

/-- Embedding of `Simulator.stop` (models.py lines 301-307): clears the
running flag when it is set, otherwise only prints a message. -/
def Simulator.stop (s : Simulator) : Simulator :=
  if s.is_running then { s with is_running := false } else s

/-- Embedding of the preferred-velocity computation in loop 1 of
`Simulator.step` (models.py lines 227-239): zero when the distance to
the destination does not exceed `size * 1.5`, otherwise
`(direction / distance) * speed`.  `rt` is the square-root oracle
standing for `numpy.linalg.norm`. -/
def prefVelocity (rt : ℚ → ℚ) (p : Person) : Vec :=
  let direction := p.destination.sub p.position
  let distance := rt (sqNorm direction)
  if p.size * (3 / 2) < distance then
    Vec.scale p.speed (Vec.scale (1 / distance) direction)
  else Vec.zero

/-- The value of the local variable `arrival_threshold` after loop 1 of
`Simulator.step` has run: it is reassigned on every iteration, so after
the loop it holds the threshold of the *last* person iterated
(`none` when there are no persons and the variable is never bound). -/
def lastThreshold (ps : List Person) : Option ℚ :=
  ps.foldl (fun _ p => some (p.size * (3 / 2))) none

/-- The (person, preferred velocity) pairs handed to the collision
avoidance engine by loop 1 of `Simulator.step` via
`setAgentPrefVelocity`, in dict iteration order. -/
def stepInputs (rt : ℚ → ℚ) (s : Simulator) : List (Person × Vec) :=
  s.persons.map fun p => (p, prefVelocity rt p)

/-- Writing the engine's output positions and velocities back into the
person objects (loop 3 of `Simulator.step`, models.py lines 259-270).
A person with no corresponding output keeps its old state (in the
source the rvo simulator always has exactly one agent per person). -/
def applyOuts : List Person → List (Vec × Vec) → List Person
  | [], _ => []
  | ps, [] => ps
  | p :: ps, o :: os =>
      { p with position := o.1, velocity := o.2 } :: applyOuts ps os

/-- The person list after one `step`, post engine write-back. -/
def stepUpdated (rt : ℚ → ℚ) (eng : List (Person × Vec) → List (Vec × Vec))
    (s : Simulator) : List Person :=
  applyOuts s.persons (eng (stepInputs rt s))

/-- The `all_reached` flag computed by loop 3 of `Simulator.step`
(models.py lines 258-275): it stays `True` unless some agent's post-step
distance to its destination exceeds the *leftover* `arrival_threshold`
(`distance_to_dest > arrival_threshold` clears it; staying reached is
`distance ≤ threshold`). -/
def stepAllReached (rt : ℚ → ℚ) (thr : ℚ) (updated : List Person) : Bool :=
  updated.all fun p => decide (rt (sqNorm (p.destination.sub p.position)) ≤ thr)

/-- Embedding of `Simulator.step` (models.py lines 209-287).
Early-returns unless running; computes preferred velocities (loop 1,
leaving `arrival_threshold` bound to the last person's threshold); runs
the engine (`doStep`, modelled by the oracle `eng`); writes back
positions and velocities; syncs `time` with the rvo global clock (which
advanced by `dt`); and finally auto-stops when `all_reached` holds and
the person dict is non-empty (lines 284-287). -/
def Simulator.step (s : Simulator) (rt : ℚ → ℚ)
    (eng : List (Person × Vec) → List (Vec × Vec)) : Simulator :=
  if s.is_running then
    let updated := stepUpdated rt eng s
    let s1 := { s with persons := updated, time := s.time + s.dt }
    if stepAllReached rt ((lastThreshold s.persons).getD 0) updated &&
        decide (0 < s.persons.length) then
      s1.stop
    else s1
  else s

/-- One agent entry of the snapshot produced by `Simulator.get_state`
(models.py lines 313-323). -/
structure PersonState where
  id : Nat
  position : Vec
  velocity : Vec
  destination : Vec
  size : ℚ
  speed : ℚ
deriving DecidableEq

def personState (p : Person) : PersonState :=
  ⟨p.id, p.position, p.velocity, p.destination, p.size, p.speed⟩

/-- The snapshot returned by `Simulator.get_state` (models.py lines
309-353).  The wall/obstacle reformatting for the frontend is a
field-preserving re-labelling, kept here in source form. -/
structure SimState where
  time : ℚ
  persons : List PersonState
  is_running : Bool
  walls : List (Vec × Vec)
  obstacles : List Obstacle
  destinations : List Vec
deriving DecidableEq

/-- Embedding of `Simulator.get_state`: a value copy of clock, agents
(in dict order), running flag, environment and destination list. -/
def Simulator.get_state (s : Simulator) : SimState :=
  { time := s.time
    persons := s.persons.map personState
    is_running := s.is_running
    walls := s.environment.walls
    obstacles := s.environment.obstacles
    destinations := s.destinations }

/-! ### The start endpoint of app.py -/

/-- Python runtime errors surfaced by the embedded handlers. -/
inductive PyError where
  | attributeError
deriving DecidableEq

/-- The module-level controller state of `app.py`: the global simulator
and whether a `simulation_loop` thread object is live. -/
structure ControllerState where
  simulator : Simulator
  thread_active : Bool
deriving DecidableEq

/-- Response of the start endpoint: message and HTTP status code. -/
structure StartResponse where
  message : String
  status : Nat
deriving DecidableEq

def alreadyRunningResponse : StartResponse :=
  { message := "Simulation is already running.", status := 400 }

/-- Embedding of `start_simulation` (app.py lines 123-161).  When the
simulator is not running, the handler first evaluates
`simulator.is_simulation_complete()` (line 132); `models.py` defines no
attribute of that name on `Simulator`, so the lookup raises
`AttributeError` before any state is modified and the request fails.
When the simulator is already running, the handler only reads the state
(`get_state`), emits it, and returns the 400 already-running response
with the controller state unchanged. -/
def start_simulation (st : ControllerState) :
    Except PyError (ControllerState × StartResponse) :=
  if st.simulator.is_running then
    Except.ok (st, alreadyRunningResponse)
  else
    Except.error PyError.attributeError

/-! ### Collision Avoidance Engine, modelled from the spec

The solver used by the source is the external rvo2 library, which is
not part of this repository; only its call sites and parameters are in
`src/backend/models.py`.  Following the status rules, the engine itself
is modelled from spec section 4.2. -/

/-- Modelled from the spec: a velocity half-plane constraint of section
4.2 steps 2-3, given by a point on its boundary line and the line
direction; a velocity `v` satisfies the constraint when
`det(direction, point - v) ≤ 0` (the allowed side of the line). -/
structure OrcaLine where
  point : Vec
  direction : Vec
deriving DecidableEq

/-- Modelled from the spec: solver parameters of section 4.2
{neighbor search radius, maximum neighbors, agent time horizon,
obstacle time horizon} plus the obstacle search range. -/
structure EngineParams where
  neighborDist : ℚ
  maxNeighbors : Nat
  timeHorizon : ℚ
  timeHorizonObst : ℚ
  obstacleRange : ℚ
deriving DecidableEq

/-- The parameter values the source passes to `addAgent`
(models.py lines 134-143): neighborDist 5.0, maxNeighbors 10,
timeHorizon 1.5, timeHorizonObst 2.0. -/
def repoParams (obstacleRange : ℚ) : EngineParams :=
  ⟨5, 10, 3 / 2, 2, obstacleRange⟩

/-- Modelled from the spec: insert a person into a list sorted by
squared distance from `a` (nearest first). -/
def insertByDist (a : Vec) (p : Person) : List Person → List Person
  | [] => [p]
  | q :: rest =>
      if sqNorm (p.position.sub a) ≤ sqNorm (q.position.sub a) then
        p :: q :: rest
      else q :: insertByDist a p rest

/-- Modelled from the spec: sort persons by squared distance from `a`. -/
def sortByDist (a : Vec) : List Person → List Person
  | [] => []
  | p :: rest => insertByDist a p (sortByDist a rest)

/-- Modelled from the spec (section 4.2 step 1): neighbors within the
neighbor search radius, nearest first, capped at `maxNeighbors`. -/
def selectNeighbors (a : Person) (others : List Person)
    (neighborDist : ℚ) (maxNeighbors : Nat) : List Person :=
  (sortByDist a.position
    (others.filter fun b =>
      decide (sqNorm (b.position.sub a.position) < neighborDist ^ 2))).take
    maxNeighbors

/-- Modelled from the spec (section 4.2 step 2): the reciprocal
velocity-obstacle half-plane induced on agent `a` by neighbor `b`.  The
half-plane boundary is tangent to the Minkowski-sum disc of the two
radii with apex at the relative position scaled by the time horizon;
`a` takes half the avoidance responsibility, so the boundary point is
`a.velocity + u / 2` where `u` is the smallest change of relative
velocity escaping the velocity obstacle.  Already-colliding pairs use
the time step instead of the horizon. -/
def neighborOrcaLine (rt : ℚ → ℚ) (dt timeHorizon : ℚ) (a b : Person) :
    OrcaLine :=
  let relativePosition := b.position.sub a.position
  let relativeVelocity := a.velocity.sub b.velocity
  let distSq := sqNorm relativePosition
  let combinedRadius := a.size + b.size
  let combinedRadiusSq := combinedRadius ^ 2
  if combinedRadiusSq < distSq then
    let invTimeHorizon := 1 / timeHorizon
    let w := relativeVelocity.sub (Vec.scale invTimeHorizon relativePosition)
    let wLengthSq := sqNorm w
    let dotProduct1 := Vec.dot w relativePosition
    if dotProduct1 < 0 ∧ combinedRadiusSq * wLengthSq < dotProduct1 ^ 2 then
      let wLength := rt wLengthSq
      let unitW := Vec.scale (1 / wLength) w
      let direction := Vec.mk unitW.y (-unitW.x)
      let u := Vec.scale (combinedRadius * invTimeHorizon - wLength) unitW
      ⟨a.velocity.add (Vec.scale (1 / 2) u), direction⟩
    else
      let leg := rt (distSq - combinedRadiusSq)
      let direction :=
        if 0 < det2 relativePosition w then
          Vec.scale (1 / distSq)
            (Vec.mk (relativePosition.x * leg - relativePosition.y * combinedRadius)
              (relativePosition.x * combinedRadius + relativePosition.y * leg))
        else
          Vec.scale (-(1 / distSq))
            (Vec.mk (relativePosition.x * leg + relativePosition.y * combinedRadius)
              (-(relativePosition.x * combinedRadius) + relativePosition.y * leg))
      let dotProduct2 := Vec.dot relativeVelocity direction
      let u := (Vec.scale dotProduct2 direction).sub relativeVelocity
      ⟨a.velocity.add (Vec.scale (1 / 2) u), direction⟩
  else
    let invTimeStep := 1 / dt
    let w := relativeVelocity.sub (Vec.scale invTimeStep relativePosition)
    let wLength := rt (sqNorm w)
    let unitW := Vec.scale (1 / wLength) w
    let direction := Vec.mk unitW.y (-unitW.x)
    let u := Vec.scale (combinedRadius * invTimeStep - wLength) unitW
    ⟨a.velocity.add (Vec.scale (1 / 2) u), direction⟩

/-- Modelled from the spec (section 4.2 step 3): the one-sided
half-plane induced by a static obstacle edge within range, with the
obstacle time horizon and full avoidance responsibility on the agent
(the boundary point is `a.velocity + u`, not `a.velocity + u / 2`); the
closest point of the edge acts as a static disc of radius `a.size`. -/
def obstacleOrcaLine (rt : ℚ → ℚ) (timeHorizonObst : ℚ) (a : Person)
    (e : Vec × Vec) : OrcaLine :=
  let ap := a.position.sub e.1
  let ab := e.2.sub e.1
  let ab2 := Vec.dot ab ab
  let t := if ab2 = 0 then 0 else max 0 (min 1 (Vec.dot ap ab / ab2))
  let closest := e.1.add (Vec.scale t ab)
  let relativePosition := closest.sub a.position
  let invTimeHorizon := 1 / timeHorizonObst
  let w := a.velocity.sub (Vec.scale invTimeHorizon relativePosition)
  let wLength := rt (sqNorm w)
  let unitW := Vec.scale (1 / wLength) w
  let direction := Vec.mk unitW.y (-unitW.x)
  let u := Vec.scale (a.size * invTimeHorizon - wLength) unitW
  ⟨a.velocity.add u, direction⟩

/-- Modelled from the spec (section 4.2 step 4): clip the preferred
velocity to the maximum-speed disc (the optimum of the unconstrained
program). -/
def clipToDisc (rt : ℚ → ℚ) (maxSpeed : ℚ) (v : Vec) : Vec :=
  if sqNorm v ≤ maxSpeed ^ 2 then v
  else Vec.scale (maxSpeed / rt (sqNorm v)) v

/-- Modelled from the spec (section 4.2 step 4): optimise along the
boundary line of constraint `l` inside the maximum-speed disc, subject
to the previously processed constraints; `none` when that segment is
empty (the accumulated set is infeasible). -/
def lineProgram1 (rt : ℚ → ℚ) (prevLines : List OrcaLine) (l : OrcaLine)
    (maxSpeed : ℚ) (pref : Vec) : Option Vec :=
  let dotProduct := Vec.dot l.point l.direction
  let discriminant := dotProduct ^ 2 + maxSpeed ^ 2 - sqNorm l.point
  if discriminant < 0 then none
  else
    let sqrtDiscriminant := rt discriminant
    let bounds := prevLines.foldl
      (fun acc prev =>
        match acc with
        | none => none
        | some tb =>
            let denominator := det2 l.direction prev.direction
            let numerator := det2 prev.direction (l.point.sub prev.point)
            if denominator = 0 then
              if numerator < 0 then none else some tb
            else
              let t := numerator / denominator
              if 0 < denominator then some (tb.1, min tb.2 t)
              else some (max tb.1 t, tb.2))
      (some (-dotProduct - sqrtDiscriminant, -dotProduct + sqrtDiscriminant))
    match bounds with
    | none => none
    | some tb =>
        if tb.2 < tb.1 then none
        else
          let tOpt := Vec.dot l.direction (pref.sub l.point)
          let t := max tb.1 (min tb.2 tOpt)
          some (l.point.add (Vec.scale t l.direction))

/-- Modelled from the spec (section 4.2 steps 4-5 and failure policy):
process the constraints incrementally; when the current result violates
a constraint, re-optimise on that constraint's boundary subject to the
constraints already processed; when the accumulated set is infeasible
the affected agent's velocity is clamped to zero for this step
(section 4.2 failure policy and section 7, SolverDegeneracy). -/
def lineProgram2 (rt : ℚ → ℚ) (maxSpeed : ℚ) (pref : Vec) :
    List OrcaLine → List OrcaLine → Vec → Vec
  | _, [], v => v
  | processed, l :: rest, v =>
      let v2 :=
        if 0 < det2 l.direction (l.point.sub v) then
          match lineProgram1 rt processed l maxSpeed pref with
          | some w => w
          | none => Vec.zero
        else v
      lineProgram2 rt maxSpeed pref (processed ++ [l]) rest v2

/-- Modelled from the spec (section 4.2 step 4): solve the 2-D linear
feasibility problem over the half-plane constraints and the
maximum-speed disc, minimising the distance to the preferred velocity. -/
def solveLP (rt : ℚ → ℚ) (maxSpeed : ℚ) (pref : Vec)
    (lines : List OrcaLine) : Vec :=
  lineProgram2 rt maxSpeed pref [] lines (clipToDisc rt maxSpeed pref)

/-- Modelled from the spec (section 4.2): the Engine's new velocity for
agent `a` given the other agents, the static obstacle edges, and the
preferred velocity.  The maximum speed is `a.speed`, as configured by
`addAgent(maxSpeed=person.speed)` in models.py line 141. -/
def computeNewVelocity (rt : ℚ → ℚ) (dt : ℚ) (prm : EngineParams)
    (a : Person) (others : List Person) (obstacleEdges : List (Vec × Vec))
    (pref : Vec) : Vec :=
  let neighbors := selectNeighbors a others prm.neighborDist prm.maxNeighbors
  let obstLines :=
    (obstacleEdges.filter fun e =>
        decide (point_segment_distSq a.position e.1 e.2 < prm.obstacleRange ^ 2)).map
      (obstacleOrcaLine rt prm.timeHorizonObst a)
  let agentLines := neighbors.map (neighborOrcaLine rt dt prm.timeHorizon a)
  solveLP rt a.speed pref (obstLines ++ agentLines)

/-! ### Concrete instances used by witnesses and counterexamples -/

/-- Square-root oracle that is exact on the squared norms occurring in
the concrete examples below (25 and 0). -/
def rtDemo : ℚ → ℚ := fun a => if a = 25 then 5 else 0

/-- Engine oracle returning no outputs (no agents). -/
def engNull : List (Person × Vec) → List (Vec × Vec) := fun _ => []

def env0 : Environment := ⟨[], []⟩

def simIdle : Simulator := mkSimulator env0 [] [] (1 / 20)

def simRun : Simulator := { simIdle with is_running := true }

def ctrlIdle : ControllerState := ⟨simIdle, false⟩

def ctrlRun : ControllerState := ⟨simRun, true⟩

/-- Invalid configuration data: non-positive speed and radius. -/
def badPerson : Person := ⟨7, ⟨0, 0⟩, -2, 0, ⟨1, 0⟩, Vec.zero⟩

def simBad : Simulator := mkSimulator env0 [badPerson] [] (-1)

/-- Two persons sharing id 0 (duplicate key). -/
def dupA : Person := ⟨0, ⟨0, 0⟩, 1, 1 / 5, ⟨1, 1⟩, Vec.zero⟩

def dupB : Person := ⟨0, ⟨2, 2⟩, 1, 1 / 5, ⟨3, 3⟩, Vec.zero⟩

/-- Small agent far from its destination: size 1, position (3,4),
destination the origin (distance 5, own threshold 1.5). -/
def personFar : Person := ⟨0, ⟨3, 4⟩, 1, 1, ⟨0, 0⟩, Vec.zero⟩

/-- Large agent exactly at its destination: size 4 (threshold 6). -/
def personAt : Person := ⟨1, ⟨0, 0⟩, 1, 4, ⟨0, 0⟩, Vec.zero⟩

/-- Running simulator whose last-iterated person has threshold 6 while
the first person sits at distance 5 from its own destination. -/
def simC3 : Simulator :=
  { environment := env0, persons := [personFar, personAt],
    destinations := [], time := 0, dt := 1 / 20, is_running := true }

/-- Engine oracle keeping both agents of `simC3` in place with zero
velocity. -/
def engC3 : List (Person × Vec) → List (Vec × Vec) :=
  fun _ => [(⟨3, 4⟩, Vec.zero), (⟨0, 0⟩, Vec.zero)]

/-- Agent used by the preferred-velocity witness: at the origin, moving
toward (3,4) with speed 2 and size 1/5. -/
def personPref : Person := ⟨3, ⟨0, 0⟩, 2, 1 / 5, ⟨3, 4⟩, Vec.zero⟩

/-- Lone agent for the engine witness: speed 1, preferred velocity of
norm 1. -/
def personLone : Person := ⟨0, ⟨0, 0⟩, 1, 1 / 5, ⟨10, 0⟩, Vec.zero⟩

def prmLone : EngineParams := repoParams 10

/-! ### Helper lemmas -/

/-- The square-root-free comparison agrees with the real comparison. -/
theorem sqrtLtB_iff (a b : ℚ) :
    sqrtLtB a b = true ↔ Real.sqrt (a : ℝ) < (b : ℝ) := by
  unfold sqrtLtB
  rw [decide_eq_true_eq]
  constructor
  · rintro ⟨hb, hab⟩
    rw [Real.sqrt_lt' (by exact_mod_cast hb)]
    exact_mod_cast hab
  · intro h
    have hb : (0 : ℝ) < (b : ℝ) := lt_of_le_of_lt (Real.sqrt_nonneg _) h
    refine ⟨by exact_mod_cast hb, ?_⟩
    have h2 := (Real.sqrt_lt' hb).mp h
    exact_mod_cast h2

/-- For an exact square root `d` of `a`, the float comparison `d ≤ t`
is the square-root-free predicate `sqrtLe a t`. -/
theorem le_iff_sqrtLe {d a t : ℚ} (h : isSqrtOf d a) : d ≤ t ↔ sqrtLe a t := by
  obtain ⟨hd, hsq⟩ := h
  constructor
  · intro hle
    refine ⟨le_trans hd hle, ?_⟩
    rw [← hsq]
    exact pow_le_pow_left₀ hd hle 2
  · rintro ⟨ht, hle⟩
    rw [← hsq] at hle
    exact le_of_pow_le_pow_left₀ (by norm_num) ht hle

/-- Boolean shape of the three early-return loops of `is_accessible`. -/
theorem not_any3_eq_false_iff (a b c : Bool) :
    ((!a && (!b && !c)) = false) ↔ (a = true ∨ b = true ∨ c = true) := by
  cases a <;> cases b <;> cases c <;> simp

/-- `add_person` changes only the person list. -/
theorem add_person_frame (s : Simulator) (p : Person) :
    (s.add_person p).environment = s.environment ∧
    (s.add_person p).destinations = s.destinations ∧
    (s.add_person p).time = s.time ∧
    (s.add_person p).dt = s.dt ∧
    (s.add_person p).is_running = s.is_running := by
  unfold Simulator.add_person
  split <;> exact ⟨rfl, rfl, rfl, rfl, rfl⟩

/-- Folding `add_person` changes only the person list. -/
theorem foldl_add_person_frame (ps : List Person) (s : Simulator) :
    (ps.foldl Simulator.add_person s).environment = s.environment ∧
    (ps.foldl Simulator.add_person s).destinations = s.destinations ∧
    (ps.foldl Simulator.add_person s).time = s.time ∧
    (ps.foldl Simulator.add_person s).dt = s.dt ∧
    (ps.foldl Simulator.add_person s).is_running = s.is_running := by
  induction ps generalizing s with
  | nil => exact ⟨rfl, rfl, rfl, rfl, rfl⟩
  | cons p rest ih =>
      simp only [List.foldl_cons]
      obtain ⟨e1, e2, e3, e4, e5⟩ := ih (s.add_person p)
      obtain ⟨f1, f2, f3, f4, f5⟩ := add_person_frame s p
      exact ⟨e1.trans f1, e2.trans f2, e3.trans f3, e4.trans f4, e5.trans f5⟩

/-- With pairwise distinct ids, folding `add_person` appends every
person in order (no one is skipped by the duplicate-key check). -/
theorem foldl_add_person_persons (ps : List Person) (s : Simulator)
    (h : ((s.persons ++ ps).map Person.id).Nodup) :
    (ps.foldl Simulator.add_person s).persons = s.persons ++ ps := by
  induction ps generalizing s with
  | nil => simp
  | cons p rest ih =>
      have hid : p.id ∉ s.persons.map Person.id := by
        intro hmem
        rw [List.map_append] at h
        have hd := (List.nodup_append.mp h).2.2
        exact hd hmem (by simp)
      simp only [List.foldl_cons, Simulator.add_person, if_neg hid]
      rw [ih { s with persons := s.persons ++ [p] }
        (by simpa [List.append_assoc] using h)]
      simp

/-- Equality of simulators from equality of all fields. -/
theorem simulator_eq_of_fields {s t : Simulator}
    (h1 : s.environment = t.environment) (h2 : s.persons = t.persons)
    (h3 : s.destinations = t.destinations) (h4 : s.time = t.time)
    (h5 : s.dt = t.dt) (h6 : s.is_running = t.is_running) : s = t := by
  cases s; cases t; simp_all

/-! ### Claims -/

/-- C1: the spec says a `start()` request on a non-running simulator
begins a stepping loop and returns normally, and is a benign no-op when
a loop is active.  The code disagrees on the first half: whenever
`simulator.is_running` is false, `start_simulation` evaluates
`simulator.is_simulation_complete()`, a method `models.py` never
defines, so the request dies with `AttributeError` (HTTP 500) before
starting anything.  The already-running half behaves as claimed: the
controller state is unchanged and the current status is reported. -/
theorem start_endpoint_attribute_error (st : ControllerState) :
    (st.simulator.is_running = false →
      start_simulation st = Except.error PyError.attributeError) ∧
    (st.simulator.is_running = true →
      start_simulation st = Except.ok (st, alreadyRunningResponse)) := by
  constructor <;> intro h <;> simp [start_simulation, h]

theorem start_endpoint_attribute_error_witness :
    start_simulation ctrlIdle = Except.error PyError.attributeError ∧
    start_simulation ctrlRun = Except.ok (ctrlRun, alreadyRunningResponse) :=
  ⟨(start_endpoint_attribute_error ctrlIdle).1 rfl,
   (start_endpoint_attribute_error ctrlRun).2 rfl⟩

/-- C2 counterexample: configuring with `dt = -1` and an agent of
radius 0 and preferred speed -2 is not rejected: construction succeeds
and stores the invalid values verbatim. -/
theorem configure_accepts_invalid_input :
    configure env0 [badPerson] [] (-1) = Except.ok simBad ∧
    simBad.dt = -1 ∧ simBad.persons = [badPerson] ∧
    badPerson.size = 0 ∧ badPerson.speed = -2 :=
  ⟨rfl, rfl, rfl, rfl, rfl⟩

/-- C2 amended: `configure` (construction of a `Simulator`) performs no
validation at all: for any `dt` (including `dt ≤ 0`) and any agents
(including non-positive radius or speed), provided the agent ids are
pairwise distinct, construction succeeds and stores environment,
agents, destinations and `dt` exactly as supplied, with clock 0 and the
running flag clear; no configuration error is ever raised. -/
theorem configure_never_validates (env : Environment) (ps : List Person)
    (dests : List Vec) (dt : ℚ) (h : (ps.map Person.id).Nodup) :
    configure env ps dests dt =
      Except.ok { environment := env, persons := ps, destinations := dests,
                  time := 0, dt := dt, is_running := false } := by
  unfold configure mkSimulator
  congr 1
  apply simulator_eq_of_fields
  · exact (foldl_add_person_frame ps _).1
  · simpa using foldl_add_person_persons ps _ (by simpa using h)
  · exact (foldl_add_person_frame ps _).2.1
  · exact (foldl_add_person_frame ps _).2.2.1
  · exact (foldl_add_person_frame ps _).2.2.2.1
  · exact (foldl_add_person_frame ps _).2.2.2.2

theorem configure_never_validates_witness :
    configure env0 [badPerson] [] (-1) =
      Except.ok { environment := env0, persons := [badPerson],
                  destinations := [], time := 0, dt := -1,
                  is_running := false } :=
  configure_never_validates env0 [badPerson] [] (-1) (by decide)

/-- C5 counterexample: when the supplied agents share an id, the
duplicate is skipped with a warning, so the snapshot taken right after
configuration does not match the supplied agent list. -/
theorem configure_duplicate_ids_snapshot_mismatch :
    ((mkSimulator env0 [dupA, dupB] [] (1 / 20)).get_state).persons ≠
      [dupA, dupB].map personState := by
  intro h
  have hlen := congrArg List.length h
  simp [mkSimulator, Simulator.add_person, Simulator.get_state,
    dupA, dupB] at hlen

/-- C5 amended: for every configuration input whose agents have
pairwise distinct ids, `configure` followed immediately by `get_state`
returns a snapshot with clock 0, running flag false, and the agent list
equal to the supplied agents in order and values. -/
theorem configure_roundtrip_snapshot (env : Environment) (ps : List Person)
    (dests : List Vec) (dt : ℚ) (h : (ps.map Person.id).Nodup) :
    (mkSimulator env ps dests dt).get_state =
      { time := 0, persons := ps.map personState, is_running := false,
        walls := env.walls, obstacles := env.obstacles,
        destinations := dests } := by
  unfold Simulator.get_state mkSimulator
  obtain ⟨e1, e2, e3, e4, e5⟩ := foldl_add_person_frame ps
    { environment := env, persons := [], destinations := dests,
      time := 0, dt := dt, is_running := false }
  have hp := foldl_add_person_persons ps
    { environment := env, persons := [], destinations := dests,
      time := 0, dt := dt, is_running := false } (by simpa using h)
  simp only [SimState.mk.injEq]
  exact ⟨e3, by rw [hp]; simp, e5, by rw [e1], by rw [e1], e2⟩

theorem configure_roundtrip_snapshot_witness :
    (mkSimulator env0 [personFar, personAt] [] (1 / 20)).get_state =
      { time := 0, persons := [personFar, personAt].map personState,
        is_running := false, walls := env0.walls,
        obstacles := env0.obstacles, destinations := [] } :=
  configure_roundtrip_snapshot env0 [personFar, personAt] [] (1 / 20)
    (by decide)

/-- C6: `is_accessible(point, probe_radius)` returns false iff the
probe circle intersects some obstacle: distance from the point to a
wall segment strictly below the probe radius, or distance to a circular
obstacle's center strictly below that obstacle's radius plus the probe
radius, or the point inside a rectangular obstacle's axis-aligned box
expanded by the probe radius.  The embedding is a pure function, so the
call has no side effects. -/
theorem is_accessible_false_iff (env : Environment) (p : Vec) (r : ℚ) :
    env.is_accessible p r = false ↔
      (∃ w ∈ env.walls,
        Real.sqrt ((point_segment_distSq p w.1 w.2 : ℚ) : ℝ) < (r : ℝ)) ∨
      (∃ c ∈ env.circles,
        Real.sqrt ((sqNorm (p.sub c.1) : ℚ) : ℝ) < ((c.2 + r : ℚ) : ℝ)) ∨
      (∃ rc ∈ env.rectangles, inExpandedBox p r rc) := by
  unfold Environment.is_accessible
  rw [not_any3_eq_false_iff]
  simp only [List.any_eq_true, sqrtLtB_iff, decide_eq_true_eq]

/-- C7: `stop()` is idempotent on the simulator state, and `start()` on
an already-running simulator leaves the whole state (clock included)
unchanged. -/
theorem stop_idempotent_start_keeps_state (s : Simulator) :
    (s.stop).stop = s.stop ∧ (s.is_running = true → s.start = s) := by
  by_cases h : s.is_running
  · exact ⟨by simp [Simulator.stop, h], fun _ => by simp [Simulator.start, h]⟩
  · exact ⟨by simp [Simulator.stop, h], fun hh => absurd hh h⟩

theorem stop_idempotent_start_keeps_state_witness :
    (simRun.stop).stop = simRun.stop ∧ simRun.start = simRun :=
  ⟨(stop_idempotent_start_keeps_state simRun).1,
   (stop_idempotent_start_keeps_state simRun).2 rfl⟩

/-- C8: whenever the running flag is clear, `step()` returns before
touching anything: positions, velocities, the clock and the flag are
all unchanged (the whole simulator state is unchanged), for every
square-root oracle and every engine behaviour. -/
theorem step_noop_when_not_running (s : Simulator) (rt : ℚ → ℚ)
    (eng : List (Person × Vec) → List (Vec × Vec))
    (h : s.is_running = false) : s.step rt eng = s := by
  simp [Simulator.step, h]

theorem step_noop_when_not_running_witness :
    simIdle.step rtDemo engNull = simIdle :=
  step_noop_when_not_running simIdle rtDemo engNull rfl

/-- C10: a running simulator with an empty agent dict never auto-stops:
the guard `all_reached and len(self.persons) > 0` fails on the length
test, so `step()` leaves the running flag set and never transitions to
Completed, for every engine behaviour. -/
theorem step_empty_agents_keeps_running (s : Simulator) (rt : ℚ → ℚ)
    (eng : List (Person × Vec) → List (Vec × Vec))
    (hrun : s.is_running = true) (hper : s.persons = []) :
    (s.step rt eng).is_running = true := by
  simp [Simulator.step, hrun, hper]

theorem step_empty_agents_keeps_running_witness :
    (simRun.step rtDemo engNull).is_running = true :=
  step_empty_agents_keeps_running simRun rtDemo engNull rfl rfl

/-- The running flag after a step of a running simulator is the
negation of the auto-stop guard `all_reached and len(persons) > 0`. -/
theorem step_run_is_running (s : Simulator) (rt : ℚ → ℚ)
    (eng : List (Person × Vec) → List (Vec × Vec))
    (hrun : s.is_running = true) :
    (s.step rt eng).is_running =
      !(stepAllReached rt ((lastThreshold s.persons).getD 0)
          (stepUpdated rt eng s) && decide (0 < s.persons.length)) := by
  by_cases hc : (stepAllReached rt ((lastThreshold s.persons).getD 0)
      (stepUpdated rt eng s) && decide (0 < s.persons.length)) = true
  · simp [Simulator.step, hrun, hc, Simulator.stop]
  · simp only [Bool.not_eq_true] at hc
    simp [Simulator.step, hrun, hc]

/-- A fold that overwrites the accumulator on every element ends with
the value taken at the last element. -/
theorem foldl_overwrite_last (g : Person → ℚ) (ps : List Person)
    (h : ps ≠ []) (init : Option ℚ) :
    ps.foldl (fun _ p => some (g p)) init = some (g (ps.getLast h)) := by
  induction ps generalizing init with
  | nil => exact absurd rfl h
  | cons p rest ih =>
      cases rest with
      | nil => simp [List.getLast]
      | cons q rest2 =>
          rw [List.foldl_cons, ih (by simp) (some (g p))]
          symm
          rw [List.getLast_cons (by simp)]

/-- The leftover `arrival_threshold` after loop 1 is the threshold of
the last person in dict order. -/
theorem lastThreshold_getD (ps : List Person) (h : ps ≠ []) :
    (lastThreshold ps).getD 0 = (ps.getLast h).size * (3 / 2) := by
  unfold lastThreshold
  rw [foldl_overwrite_last (fun p => p.size * (3 / 2)) ps h]
  rfl

/-- C3 counterexample: a running simulator with two agents, the first
(radius 1) at distance 5 from its destination, the second (radius 4)
the last one iterated.  The completion check compares every agent
against the leftover threshold 4 × 1.5 = 6, so the simulator clears the
running flag even though the first agent is far outside its own
threshold 1.5 — refuting the claimed iff at this input. -/
theorem step_autostop_own_threshold_counterexample :
    ¬ (((simC3.step rtDemo engC3).is_running = false) ↔
        ∀ p ∈ stepUpdated rtDemo engC3 simC3,
          sqrtLe (sqNorm (p.destination.sub p.position)) (p.size * (3 / 2))) := by
  intro hiff
  have hupd : stepUpdated rtDemo engC3 simC3 = [personFar, personAt] := rfl
  have hsqFar : sqNorm (personFar.destination.sub personFar.position) = 25 := by
    norm_num [sqNorm, Vec.sub, personFar]
  have hsqAt : sqNorm (personAt.destination.sub personAt.position) = 0 := by
    norm_num [sqNorm, Vec.sub, personAt]
  have hrunning : (simC3.step rtDemo engC3).is_running = false := by
    rw [step_run_is_running simC3 rtDemo engC3 rfl]
    have hthr : (lastThreshold simC3.persons).getD 0 = (6 : ℚ) := by
      show (4 : ℚ) * (3 / 2) = 6
      norm_num
    have hA : rtDemo (sqNorm (personFar.destination.sub personFar.position)) ≤ 6 := by
      rw [hsqFar]
      norm_num [rtDemo]
    have hB : rtDemo (sqNorm (personAt.destination.sub personAt.position)) ≤ 6 := by
      rw [hsqAt]
      norm_num [rtDemo]
    rw [hupd, hthr]
    simp [stepAllReached, hA, hB, simC3]
  have hfar := (hiff.mp hrunning) personFar (by rw [hupd]; simp)
  have hle := hfar.2
  rw [hsqFar] at hle
  norm_num [personFar] at hle

/-- C3 amended: for every running simulator with a non-empty agent set,
`step()` clears the running flag (transitions to Completed) iff every
agent's post-step distance to its own destination is at most the
*leftover* arrival threshold of the preferred-velocity loop — the
threshold of the last agent in dict order (its radius × 1.5) — not each
agent's own threshold. -/
theorem step_autostop_iff_last_threshold (s : Simulator) (rt : ℚ → ℚ)
    (eng : List (Person × Vec) → List (Vec × Vec))
    (hrun : s.is_running = true) (hne : s.persons ≠ [])
    (hrt : ∀ p ∈ stepUpdated rt eng s,
      isSqrtOf (rt (sqNorm (p.destination.sub p.position)))
        (sqNorm (p.destination.sub p.position))) :
    ((s.step rt eng).is_running = false ↔
      ∀ p ∈ stepUpdated rt eng s,
        sqrtLe (sqNorm (p.destination.sub p.position))
          ((s.persons.getLast hne).size * (3 / 2))) := by
  rw [step_run_is_running s rt eng hrun]
  have hlen : decide (0 < s.persons.length) = true := by
    simp [List.length_pos, hne]
  rw [hlen, Bool.and_true, Bool.not_eq_false', lastThreshold_getD s.persons hne]
  unfold stepAllReached
  rw [List.all_eq_true]
  constructor
  · intro hall p hp
    have h1 := hall p hp
    rw [decide_eq_true_eq] at h1
    exact (le_iff_sqrtLe (hrt p hp)).mp h1
  · intro hall p hp
    rw [decide_eq_true_eq]
    exact (le_iff_sqrtLe (hrt p hp)).mpr (hall p hp)

theorem step_autostop_iff_last_threshold_witness :
    ((simC3.step rtDemo engC3).is_running = false ↔
      ∀ p ∈ stepUpdated rtDemo engC3 simC3,
        sqrtLe (sqNorm (p.destination.sub p.position))
          ((simC3.persons.getLast (by simp [simC3])).size * (3 / 2))) :=
  step_autostop_iff_last_threshold simC3 rtDemo engC3 rfl (by simp [simC3])
    (by
      intro p hp
      have hp2 : p = personFar ∨ p = personAt := by
        simpa [stepUpdated, stepInputs, applyOuts, engC3, simC3, personFar,
          personAt] using hp
      rcases hp2 with h | h <;> subst h
      · refine ⟨?_, ?_⟩ <;>
          norm_num [rtDemo, sqNorm, Vec.sub, personFar]
      · refine ⟨?_, ?_⟩ <;>
          norm_num [rtDemo, sqNorm, Vec.sub, personAt])

/-- C4: the preferred velocity handed to the engine for an agent is the
zero vector when the agent's distance `d` to its destination is within
the arrival threshold (radius × 1.5), and otherwise is the unit vector
toward the destination (`(1/d) · direction`, of squared norm 1) times
the agent's preferred speed. -/
theorem step_preferred_velocity_formula (rt : ℚ → ℚ) (p : Person) (d : ℚ)
    (hsize : 0 < p.size)
    (hd : isSqrtOf d (sqNorm (p.destination.sub p.position)))
    (hrt : rt (sqNorm (p.destination.sub p.position)) = d) :
    (d ≤ p.size * (3 / 2) → prefVelocity rt p = Vec.zero) ∧
    (p.size * (3 / 2) < d →
      prefVelocity rt p =
        Vec.scale p.speed (Vec.scale (1 / d) (p.destination.sub p.position)) ∧
      sqNorm (Vec.scale (1 / d) (p.destination.sub p.position)) = 1) := by
  constructor
  · intro hle
    simp only [prefVelocity, hrt]
    rw [if_neg (not_lt.mpr hle)]
  · intro hlt
    have hdpos : 0 < d := lt_trans (by positivity) hlt
    refine ⟨?_, ?_⟩
    · simp only [prefVelocity, hrt]
      rw [if_pos hlt]
    · obtain ⟨hd0, hdsq⟩ := hd
      have hexp : sqNorm (Vec.scale (1 / d) (p.destination.sub p.position))
          = (1 / d) ^ 2 * sqNorm (p.destination.sub p.position) := by
        simp only [sqNorm, Vec.scale, Vec.sub]
        ring
      rw [hexp, ← hdsq]
      field_simp

theorem step_preferred_velocity_formula_witness :
    prefVelocity rtDemo personPref = Vec.mk (6 / 5) (8 / 5) := by
  have h := (step_preferred_velocity_formula rtDemo personPref 5
    (by norm_num [personPref])
    (by refine ⟨?_, ?_⟩ <;> norm_num [sqNorm, Vec.sub, personPref])
    (by norm_num [rtDemo, sqNorm, Vec.sub, personPref])).2
    (by norm_num [personPref])
  rw [h.1]
  norm_num [Vec.scale, Vec.sub, personPref, Vec.mk.injEq]

/-- C9: the Engine (modelled from spec section 4.2; the rvo2 library
used by the source is not part of this repository) produces exactly the
preferred velocity for an agent with no neighboring agents and no
obstacle edges within the neighbor search ranges: with no constraints
the linear program returns the preferred velocity unchanged, since its
norm never exceeds the agent's maximum speed (the source configures
`maxSpeed = person.speed`, and preferred velocities have norm `speed`
or 0). -/
theorem engine_identity_without_neighbors (rt : ℚ → ℚ) (dt : ℚ)
    (prm : EngineParams) (a : Person) (others : List Person)
    (edges : List (Vec × Vec)) (pref : Vec)
    (hn : ∀ b ∈ others,
      ¬ (sqNorm (b.position.sub a.position) < prm.neighborDist ^ 2))
    (ho : ∀ e ∈ edges,
      ¬ (point_segment_distSq a.position e.1 e.2 < prm.obstacleRange ^ 2))
    (hpref : sqNorm pref ≤ a.speed ^ 2) :
    computeNewVelocity rt dt prm a others edges pref = pref := by
  have h1 : (others.filter fun b =>
      decide (sqNorm (b.position.sub a.position) < prm.neighborDist ^ 2)) = [] :=
    List.filter_eq_nil_iff.mpr (by intro b hb; simpa using hn b hb)
  have h2 : (edges.filter fun e =>
      decide (point_segment_distSq a.position e.1 e.2 < prm.obstacleRange ^ 2)) = [] :=
    List.filter_eq_nil_iff.mpr (by intro e he; simpa using ho e he)
  simp only [computeNewVelocity, selectNeighbors, h1, h2, sortByDist,
    List.take_nil, List.map_nil, List.nil_append, solveLP, lineProgram2,
    clipToDisc, if_pos hpref]

theorem engine_identity_without_neighbors_witness :
    computeNewVelocity rtDemo (1 / 20) prmLone personLone [] []
      (Vec.mk (3 / 5) (4 / 5)) = Vec.mk (3 / 5) (4 / 5) :=
  engine_identity_without_neighbors rtDemo (1 / 20) prmLone personLone [] []
    (Vec.mk (3 / 5) (4 / 5)) (by simp) (by simp)
    (by norm_num [sqNorm, personLone])

end Yamob
